import Mathlib

/-!
Verification of the HealthCost AI Copilot frontend core
(`src/static/js/api.js`, `src/static/js/app.js`) against its
natural-language specification.

The JavaScript is shallowly embedded: pure fragments become Lean
functions, the stateful chat flow becomes explicit state passing, and
JavaScript's falsy coercions (`x || y`, `!x`) are made explicit.
Components of the system that live in the backend (the Orchestrator and
the Intent Router) are modelled from the specification where noted.
-/

namespace HealthCost

/-- A citation source as carried in assistant message metadata
(`msg.metadata.sources` in `app.js`); relevance scores are modelled as
rationals. -/
structure Source where
  document_name : Option String
  document_id : Option String
  section_title : Option String
  page_number : Option Nat
  relevance_score : ℚ
deriving DecidableEq

/-- JavaScript `a || b` on an optional string: `none` (undefined/null)
and the empty string are falsy. -/
def jsOrStr (a : Option String) (b : String) : String :=
  match a with
  | none => b
  | some s => if s = "" then b else s

/-- JavaScript template rendering of `s.page_number || ''`: an absent
page and page `0` are falsy and render as the empty string. -/
def pageStr (p : Option Nat) : String :=
  match p with
  | none => ""
  | some n => if n = 0 then "" else toString n

/-- The deduplication key built in `renderMessages` (`app.js`):
`` `${s.document_name || s.document_id}|${s.section_title || ''}|${s.page_number || ''}` ``.
A missing `document_name` falls back to `document_id`; when both are
absent the template renders the string `undefined`. -/
def srcKey (s : Source) : String :=
  jsOrStr s.document_name (jsOrStr s.document_id "undefined") ++ "|"
    ++ jsOrStr s.section_title "" ++ "|" ++ pageStr s.page_number

/-- The (document, section, page) tuple of a source, with the document
given by both of its identifying fields. -/
def srcTuple (s : Source) : Option String × Option String × Option String × Option Nat :=
  (s.document_name, s.document_id, s.section_title, s.page_number)

/-- The `seen`-set loop of `renderMessages`: keep a source only if its
key has not been seen before (first occurrence wins). -/
def dedupLoop (seen : List String) : List Source → List Source
  | [] => []
  | s :: rest =>
    if srcKey s ∈ seen then dedupLoop seen rest
    else s :: dedupLoop (srcKey s :: seen) rest

/-- `uniqueSources` from `renderMessages`: the source list deduplicated
by key, starting from an empty `seen` set. -/
def uniqueSources (sources : List Source) : List Source :=
  dedupLoop [] sources

/-- `displaySources` from `renderMessages`: `uniqueSources.slice(0, 5)`,
the first five deduplicated sources in input order. -/
def displaySources (sources : List Source) : List Source :=
  (uniqueSources sources).take 5

/-- A conversation message as held in `AppState.currentMessages`;
`metadata_sources` models `msg.metadata?.sources` (absent metadata or
absent sources are the empty list). -/
structure Msg where
  id : Option String
  role : String
  content : String
  metadata_sources : List Source
deriving DecidableEq

/-- The source list actually rendered for a message by `renderMessages`:
sources are shown only for non-user messages with a non-empty
`metadata.sources`, deduplicated and capped at five. -/
def renderMsgSources (m : Msg) : List Source :=
  if m.role ≠ "user" ∧ m.metadata_sources ≠ [] then displaySources m.metadata_sources
  else []

theorem dedupLoop_sublist (l : List Source) :
    ∀ seen : List String, (dedupLoop seen l).Sublist l := by
  induction l with
  | nil => intro seen; simp [dedupLoop]
  | cons a rest ih =>
    intro seen
    by_cases h : srcKey a ∈ seen
    · simpa [dedupLoop, h] using (ih seen).trans (List.sublist_cons_self a rest)
    · simpa [dedupLoop, h] using (ih (srcKey a :: seen)).cons₂ a

theorem mem_dedupLoop_not_seen (l : List Source) :
    ∀ (seen : List String) (s : Source), s ∈ dedupLoop seen l → srcKey s ∉ seen := by
  induction l with
  | nil => intro seen s hs; simp [dedupLoop] at hs
  | cons a rest ih =>
    intro seen s hs
    by_cases h : srcKey a ∈ seen
    · exact ih seen s (by simpa [dedupLoop, h] using hs)
    · rw [dedupLoop, if_neg h] at hs
      rcases List.mem_cons.mp hs with rfl | hs'
      · exact h
      · intro hseen
        exact ih (srcKey a :: seen) s hs' (List.mem_cons_of_mem _ hseen)

theorem dedupLoop_pairwise_key (l : List Source) :
    ∀ seen : List String, (dedupLoop seen l).Pairwise (fun a b => srcKey a ≠ srcKey b) := by
  induction l with
  | nil => intro seen; simp [dedupLoop]
  | cons a rest ih =>
    intro seen
    by_cases h : srcKey a ∈ seen
    · simpa [dedupLoop, h] using ih seen
    · rw [dedupLoop, if_neg h]
      refine List.Pairwise.cons ?_ (ih (srcKey a :: seen))
      intro b hb hkey
      exact mem_dedupLoop_not_seen rest (srcKey a :: seen) b hb
        (by simp [hkey])

theorem countP_le_one_of_pairwise_key (l : List Source) (p : Source → Bool)
    (hk : ∀ a b, p a = true → p b = true → srcKey a = srcKey b)
    (hp : l.Pairwise (fun a b => srcKey a ≠ srcKey b)) : l.countP p ≤ 1 := by
  induction l with
  | nil => simp [List.countP_nil]
  | cons a rest ih =>
    rcases List.pairwise_cons.mp hp with ⟨ha, hrest⟩
    by_cases hpa : p a = true
    · have hz : rest.countP p = 0 := by
        rw [List.countP_eq_zero]
        intro b hb hpb
        exact ha b hb (hk a b hpa hpb)
      simp [List.countP_cons, hpa, hz]
    · simp only [List.countP_cons, hpa, if_false]
      simpa using ih hrest

theorem srcKey_eq_of_tuple_eq {a b : Source} (h : srcTuple a = srcTuple b) :
    srcKey a = srcKey b := by
  simp only [srcTuple, Prod.mk.injEq] at h
  obtain ⟨h1, h2, h3, h4⟩ := h
  simp [srcKey, h1, h2, h3, h4]

/-- Claim C2 (as stated, refuted): a message whose source list holds the
same (document, section, page) tuple twice, in positions 6 and 7, while
five distinct sources precede it.  The rendered list drops the
duplicated tuple entirely (count 0, not "exactly once"), because the
deduplicated list is capped to its first five entries. -/
def msgC2 : Msg :=
  { id := some "m-c2", role := "assistant", content := "answer",
    metadata_sources :=
      [ ⟨some "DocA", some "dA", some "s1", some 1, 0⟩,
        ⟨some "DocB", some "dB", some "s2", some 2, 0⟩,
        ⟨some "DocC", some "dC", some "s3", some 3, 0⟩,
        ⟨some "DocD", some "dD", some "s4", some 4, 0⟩,
        ⟨some "DocE", some "dE", some "s5", some 5, 0⟩,
        ⟨some "DocF", some "dF", some "s6", some 6, 0⟩,
        ⟨some "DocF", some "dF", some "s6", some 6, 1/2⟩ ] }

/-- The duplicated source of `msgC2` (its sixth entry). -/
def srcDupC2 : Source := ⟨some "DocF", some "dF", some "s6", some 6, 0⟩

/-- Claim C2, counterexample: `msgC2`'s source list contains two entries
with the identical (document, section, page) tuple, yet the list shown
to the user contains that tuple zero times, not exactly once. -/
theorem claim_C2_counterexample :
    msgC2.metadata_sources.countP (fun x => decide (srcTuple x = srcTuple srcDupC2)) = 2 ∧
    (renderMsgSources msgC2).countP (fun x => decide (srcTuple x = srcTuple srcDupC2)) = 0 := by
  constructor <;> rfl

/-- Claim C2 (amended): the source list rendered for any message
contains each (document, section, page) tuple at most once — the
deduplication key is a function of the tuple and the rendered list has
pairwise-distinct keys; "exactly once" fails only when the tuple's first
occurrence is pushed out by the cap to five sources. -/
theorem claim_C2_rendered_tuple_at_most_once (m : Msg) (t : Source) :
    (renderMsgSources m).countP (fun x => decide (srcTuple x = srcTuple t)) ≤ 1 := by
  have hpair : (renderMsgSources m).Pairwise (fun a b => srcKey a ≠ srcKey b) := by
    unfold renderMsgSources
    by_cases h : m.role ≠ "user" ∧ m.metadata_sources ≠ []
    · rw [if_pos h]
      exact (dedupLoop_pairwise_key _ []).sublist (List.take_sublist 5 _)
    · rw [if_neg h]; simp
  refine countP_le_one_of_pairwise_key _ _ ?_ hpair
  intro a b hpa hpb
  have ha := of_decide_eq_true hpa
  have hb := of_decide_eq_true hpb
  exact srcKey_eq_of_tuple_eq (ha.trans hb.symm)

/-- Claim C3 (as stated, refuted): six sources with pairwise-distinct
keys whose last entry carries the highest relevance score;
`renderMessages` shows the first five in input order, dropping the
highest-scoring one. -/
def msgC3 : Msg :=
  { id := some "m-c3", role := "assistant", content := "answer",
    metadata_sources :=
      [ ⟨some "DocA", some "dA", some "s1", some 1, 0⟩,
        ⟨some "DocB", some "dB", some "s2", some 2, 0⟩,
        ⟨some "DocC", some "dC", some "s3", some 3, 0⟩,
        ⟨some "DocD", some "dD", some "s4", some 4, 0⟩,
        ⟨some "DocE", some "dE", some "s5", some 5, 0⟩,
        ⟨some "DocF", some "dF", some "s6", some 6, 1⟩ ] }

/-- The lowest-scoring source of `msgC3` (shown). -/
def srcLowC3 : Source := ⟨some "DocA", some "dA", some "s1", some 1, 0⟩

/-- The highest-scoring source of `msgC3` (not shown). -/
def srcTopC3 : Source := ⟨some "DocF", some "dF", some "s6", some 6, 1⟩

/-- Claim C3, counterexample: among `msgC3`'s deduplicated sources, the
one with the highest relevance score is not displayed while a
lower-scoring one is — the rendered list is not the top 5 by relevance
score, because `renderMessages` takes the first five in input order. -/
theorem claim_C3_counterexample :
    srcTopC3 ∈ uniqueSources msgC3.metadata_sources ∧
    srcTopC3 ∉ renderMsgSources msgC3 ∧
    srcLowC3 ∈ renderMsgSources msgC3 ∧
    srcLowC3.relevance_score < srcTopC3.relevance_score := by
  refine ⟨by decide, by decide, by decide, by decide⟩

/-- Claim C3 (amended): at most five sources are displayed for any
message, and they are deduplicated sources taken in the order the
message's source list supplies them (an order-preserving sublist of the
deduplicated list, itself an order-preserving sublist of the input);
the render layer performs no reordering by relevance score. -/
theorem claim_C3_display_cap_and_order (m : Msg) :
    (renderMsgSources m).length ≤ 5 ∧
    (renderMsgSources m).Sublist (uniqueSources m.metadata_sources) ∧
    (uniqueSources m.metadata_sources).Sublist m.metadata_sources := by
  refine ⟨?_, ?_, dedupLoop_sublist _ []⟩ <;> unfold renderMsgSources <;>
    by_cases h : m.role ≠ "user" ∧ m.metadata_sources ≠ []
  · rw [if_pos h]; exact List.length_take_le 5 _
  · rw [if_neg h]; simp
  · rw [if_pos h]; exact List.take_sublist 5 _
  · rw [if_neg h]; exact List.nil_sublist _

/-- The local-state update of `deleteMessage` (`app.js`) on API success:
`AppState.currentMessages.splice(index, 1)` removes the single element
at `index`. -/
def deleteMessageLocal (ms : List Msg) (i : Nat) : List Msg :=
  ms.eraseIdx i

/-- Claim C4: deleting a single message mid-conversation removes exactly
the element at position `i` and renumbers nothing — the resulting list
is the original with that one position removed, every message before `i`
keeps its position and every later message keeps its identity (id, role,
content) and relative order. -/
theorem claim_C4_delete_removes_exactly_one (ms : List Msg) (i : Nat) (h : i < ms.length) :
    deleteMessageLocal ms i = ms.take i ++ ms.drop (i + 1) ∧
    (deleteMessageLocal ms i).length = ms.length - 1 ∧
    (∀ j, j < i → (deleteMessageLocal ms i)[j]? = ms[j]?) ∧
    (∀ j, i ≤ j → (deleteMessageLocal ms i)[j]? = ms[j + 1]?) := by
  refine ⟨List.eraseIdx_eq_take_drop_succ ms i, List.length_eraseIdx_of_lt h, ?_, ?_⟩
  · intro j hj
    rw [deleteMessageLocal, List.eraseIdx_eq_take_drop_succ,
      List.getElem?_append, List.length_take]
    have hlt : j < i ⊓ ms.length := by omega
    rw [if_pos hlt, List.getElem?_take, if_pos hj]
  · intro j hij
    rw [deleteMessageLocal, List.eraseIdx_eq_take_drop_succ,
      List.getElem?_append_right (by rw [List.length_take]; omega),
      List.getElem?_drop, List.length_take]
    congr 1
    omega

/-- A concrete three-message conversation used to witness claim C4. -/
def msgsC4 : List Msg :=
  [ ⟨some "u1", "user", "pergunta 1", []⟩,
    ⟨some "a1", "assistant", "resposta 1", []⟩,
    ⟨some "u2", "user", "pergunta 2", []⟩ ]

/-- Claim C4, witness: deleting the middle message of a concrete
three-message conversation yields exactly the first and last message. -/
theorem claim_C4_witness :
    deleteMessageLocal msgsC4 1 = msgsC4.take 1 ++ msgsC4.drop 2 ∧
    (deleteMessageLocal msgsC4 1).length = msgsC4.length - 1 :=
  ⟨(claim_C4_delete_removes_exactly_one msgsC4 1 (by decide)).1,
   (claim_C4_delete_removes_exactly_one msgsC4 1 (by decide)).2.1⟩

/-- The options object accepted by `ChatAPI.sendMessage` and
`ChatAPI.sendMessageStream` (`api.js`); absent properties are `none`. -/
structure ChatOptions where
  contractId : Option String := none
  conversationId : Option String := none
  includeSources : Option Bool := none
  includeDebug : Option Bool := none

/-- The JSON request body both chat entry points build and post. -/
structure ChatRequestBody where
  message : String
  client_id : String
  contract_id : Option String
  conversation_id : Option String
  include_sources : Bool
  include_debug : Bool
deriving DecidableEq

/-- JavaScript `x || null` on an optional string: `none` and the empty
string coerce to `null`. -/
def jsOrNull (a : Option String) : Option String :=
  match a with
  | none => none
  | some s => if s = "" then none else some s

/-- The body built by `ChatAPI.sendMessage` (`api.js`):
`contract_id: options.contractId || null`,
`conversation_id: options.conversationId || null`,
`include_sources: options.includeSources !== false`,
`include_debug: options.includeDebug || false`. -/
def sendMessageBody (message clientId : String) (options : ChatOptions) : ChatRequestBody :=
  { message := message,
    client_id := clientId,
    contract_id := jsOrNull options.contractId,
    conversation_id := jsOrNull options.conversationId,
    include_sources := match options.includeSources with
      | some false => false
      | _ => true,
    include_debug := options.includeDebug.getD false }

/-- The body built by `ChatAPI.sendMessageStream` (`api.js`), literally
the same construction as in `sendMessage`. -/
def sendMessageStreamBody (message clientId : String) (options : ChatOptions) : ChatRequestBody :=
  { message := message,
    client_id := clientId,
    contract_id := jsOrNull options.contractId,
    conversation_id := jsOrNull options.conversationId,
    include_sources := match options.includeSources with
      | some false => false
      | _ => true,
    include_debug := options.includeDebug.getD false }

/-- Claim C6: both chat entry points send the inbound-request shape with
fields `message`, `client_id`, `contract_id`, `conversation_id` and
`include_sources`; the two ids are `null` when not supplied in the
options, and `include_sources` is `true` for every options value except
an explicit `includeSources === false`. -/
theorem claim_C6_request_body_shape (m cid : String) (opts : ChatOptions) :
    sendMessageBody m cid opts = sendMessageStreamBody m cid opts ∧
    (sendMessageBody m cid opts).message = m ∧
    (sendMessageBody m cid opts).client_id = cid ∧
    (opts.contractId = none → (sendMessageBody m cid opts).contract_id = none) ∧
    (opts.conversationId = none → (sendMessageBody m cid opts).conversation_id = none) ∧
    ((sendMessageBody m cid opts).include_sources = false ↔ opts.includeSources = some false) := by
  refine ⟨rfl, rfl, rfl, ?_, ?_, ?_⟩
  · intro h; simp [sendMessageBody, jsOrNull, h]
  · intro h; simp [sendMessageBody, jsOrNull, h]
  · cases his : opts.includeSources with
    | none => simp [sendMessageBody, his]
    | some b => cases b <;> simp [sendMessageBody, his]

/-- Claim C6, witness: a request built with empty options carries `null`
for both optional ids. -/
theorem claim_C6_witness :
    (sendMessageBody "Oi" "c1" {}).contract_id = none ∧
    (sendMessageBody "Oi" "c1" {}).conversation_id = none :=
  ⟨(claim_C6_request_body_shape "Oi" "c1" {}).2.2.2.1 rfl,
   (claim_C6_request_body_shape "Oi" "c1" {}).2.2.2.2.1 rfl⟩

/-- A JSON value, as produced by `response.json()`.  Numbers are
modelled as rationals. -/
inductive Json where
  | null
  | bool (b : Bool)
  | num (q : ℚ)
  | str (s : String)
  | arr (elems : List Json)
  | obj (fields : List (String × Json))

/-- Property lookup on a JSON object's field list (first match wins);
`none` models JavaScript `undefined`. -/
def jsonLookup : List (String × Json) → String → Option Json
  | [], _ => none
  | (k, v) :: rest, key => if k = key then some v else jsonLookup rest key

/-- `error.detail`: property access on the parsed error body; absent on
non-objects. -/
def getDetail (j : Json) : Option Json :=
  match j with
  | .obj fields => jsonLookup fields "detail"
  | _ => none

/-- JavaScript truthiness of a JSON value: `null`, `false`, `0` and the
empty string are falsy. -/
def jsTruthy : Json → Bool
  | .null => false
  | .bool b => b
  | .num q => decide (q ≠ 0)
  | .str s => decide (s ≠ "")
  | .arr _ => true
  | .obj _ => true

/-- JavaScript string coercion `String(x)` of a JSON value, as applied
by `new Error(message)`; number formatting is approximated by the
rational's print form and containers by their degenerate coercions. -/
def jsString : Json → String
  | .null => "null"
  | .bool b => if b then "true" else "false"
  | .num q => toString q
  | .str s => s
  | .arr _ => ""
  | .obj _ => "[object Object]"

/-- A settled `fetch` response as `apiRequest` sees it: the `ok` flag,
the numeric status, and the result of `response.json()` (`none` when
the body is not parseable JSON). -/
structure FetchResponse where
  ok : Bool
  status : Nat
  jsonBody : Option Json

/-- `error.detail || 'Erro na requisicao'`: the message passed to
`new Error` for a non-ok response. -/
def errorDetailMessage (d : Option Json) : String :=
  match d with
  | some j => if jsTruthy j then jsString j else "Erro na requisicao"
  | none => "Erro na requisicao"

/-- `apiRequest` (`api.js`) as a function of the settled response: an ok
response resolves with its parsed JSON body (and rejects with the parse
error when the body is not JSON); a non-ok response rejects with an
`Error` whose message is built from the parsed error body, falling back
to the object `{detail: 'HTTP error <status>'}` when that body does not
parse. -/
def apiRequest (resp : FetchResponse) : Except String Json :=
  if resp.ok then
    match resp.jsonBody with
    | some j => Except.ok j
    | none => Except.error "SyntaxError: unexpected response body"
  else
    match resp.jsonBody with
    | some j => Except.error (errorDetailMessage (getDetail j))
    | none =>
      Except.error (errorDetailMessage
        (getDetail (Json.obj [("detail", Json.str ("HTTP error " ++ toString resp.status))])))

/-- Whether the promise returned by `apiRequest` resolves (rather than
rejects). -/
def apiResolves : Except String Json → Bool
  | .ok _ => true
  | .error _ => false

/-- Claim C8, counterexample: an ok response whose body is not
parseable JSON makes `apiRequest` reject (the rethrown parse error), so
"resolves with the parsed JSON body if and only if the response status
is ok" fails in the left-to-right direction at this input. -/
theorem claim_C8_counterexample :
    ({ ok := true, status := 200, jsonBody := none } : FetchResponse).ok = true ∧
    apiResolves (apiRequest { ok := true, status := 200, jsonBody := none }) = false :=
  ⟨rfl, rfl⟩

/-- Claim C8 (amended): `apiRequest` resolves exactly when the response
is ok and its body parses as JSON, in which case the value is the parsed
body; it never resolves for a non-ok response, whose rejection message
is the `detail` field of the parsed error body when present and truthy,
and `HTTP error <status>` when the error body is not parseable JSON. -/
theorem claim_C8_error_resolution (resp : FetchResponse) :
    (apiResolves (apiRequest resp) = true ↔ resp.ok = true ∧ resp.jsonBody.isSome = true) ∧
    (∀ j, resp.ok = true → resp.jsonBody = some j → apiRequest resp = Except.ok j) ∧
    (resp.ok = false → resp.jsonBody = none →
      apiRequest resp = Except.error ("HTTP error " ++ toString resp.status)) ∧
    (∀ j s, resp.ok = false → resp.jsonBody = some j → getDetail j = some (Json.str s) →
      s ≠ "" → apiRequest resp = Except.error s) ∧
    (resp.ok = false → apiResolves (apiRequest resp) = false) := by
  obtain ⟨ok, status, body⟩ := resp
  refine ⟨?_, ?_, ?_, ?_, ?_⟩
  · cases ok <;> cases body <;>
      simp [apiRequest, apiResolves, errorDetailMessage, getDetail, jsonLookup, jsTruthy]
  · intro j hok hb
    subst hok
    simp only at hb
    simp [apiRequest, hb]
  · intro hok hb
    subst hok
    simp only at hb
    have hne : ("HTTP error " ++ toString status) ≠ "" := by
      intro hcontra
      have h2 := congrArg String.length hcontra
      rw [String.length_append] at h2
      have hl : ("HTTP error " : String).length = 11 := rfl
      have hz : ("" : String).length = 0 := rfl
      rw [hl, hz] at h2
      omega
    simp [apiRequest, hb, errorDetailMessage, getDetail, jsonLookup, jsTruthy, jsString, hne]
  · intro j s hok hb hd hs
    subst hok
    simp only at hb
    simp [apiRequest, hb, errorDetailMessage, hd, jsTruthy, jsString, hs]
  · intro hok
    subst hok
    cases body <;> simp [apiRequest, apiResolves]

/-- The concrete non-ok response used to witness claim C8: a 404 whose
JSON body carries a `detail` message. -/
def respC8 : FetchResponse :=
  { ok := false, status := 404,
    jsonBody := some (Json.obj [("detail", Json.str "Cliente nao encontrado")]) }

/-- Claim C8, witness: the 404 with a JSON `detail` body rejects with
exactly that detail as the error message. -/
theorem claim_C8_witness :
    apiRequest respC8 = Except.error "Cliente nao encontrado" :=
  (claim_C8_error_resolution respC8).2.2.2.1
    (Json.obj [("detail", Json.str "Cliente nao encontrado")])
    "Cliente nao encontrado" rfl rfl rfl (by decide)

/-- A callback invocation made by `sendMessageStream`: `onStatus` with
the event's step, message and agent, `onComplete` with the completion
payload, or `onError` with an error code and message. -/
inductive Callback where
  | onStatus (step message agent : String)
  | onComplete (response : String) (sources : List Source) (conversation_id : Option String)
  | onError (error message : String)
deriving DecidableEq

/-- Prepend a character to the first piece of a split (the `else` arm of
splitting: the character extends the current line). -/
def consHead (c : Char) : List (List Char) → List (List Char)
  | [] => [[c]]
  | l :: ls => (c :: l) :: ls

/-- `buffer.split('\n')` at the character level: JavaScript
`String.split` with a single-character separator, including the empty
trailing piece after a final newline (`"".split` gives `[""]`). -/
def splitNl : List Char → List (List Char)
  | [] => [[]]
  | c :: cs => if c = '\n' then [] :: splitNl cs else consHead c (splitNl cs)

theorem splitNl_ne_nil (l : List Char) : splitNl l ≠ [] := by
  induction l with
  | nil => simp [splitNl]
  | cons c cs ih =>
    by_cases hc : c = '\n'
    · simp [splitNl, hc]
    · rw [splitNl, if_neg hc]
      cases hs : splitNl cs <;> simp [consHead]

theorem getLastD_irrel {α : Type} (l : List α) (h : l ≠ []) (d₁ d₂ : α) :
    l.getLastD d₁ = l.getLastD d₂ := by
  rw [List.getLastD_eq_getLast?, List.getLastD_eq_getLast?, List.getLast?_eq_getLast l h]
  rfl

theorem nl_not_mem_splitNl_getLastD (l : List Char) :
    '\n' ∉ (splitNl l).getLastD [] := by
  induction l with
  | nil => simp [splitNl]
  | cons c cs ih =>
    by_cases hc : c = '\n'
    · rw [splitNl, if_pos hc, List.getLastD_cons,
        getLastD_irrel _ (splitNl_ne_nil cs) [] []]
      exact ih
    · rw [splitNl, if_neg hc]
      rcases hs : splitNl cs with _ | ⟨p, ps⟩
      · exact absurd hs (splitNl_ne_nil cs)
      · rw [hs] at ih
        cases ps with
        | nil =>
          simp only [consHead, List.getLastD_cons, List.getLastD_nil] at ih ⊢
          intro hmem
          rcases List.mem_cons.mp hmem with h | h
          · exact hc h.symm
          · exact ih h
        | cons q qs =>
          simp only [consHead, List.getLastD_cons] at ih ⊢
          exact ih

theorem splitNl_no_nl (l : List Char) (h : '\n' ∉ l) : splitNl l = [l] := by
  induction l with
  | nil => rfl
  | cons c cs ih =>
    rw [List.mem_cons, not_or] at h
    rw [splitNl, if_neg (fun hc => h.1 hc.symm), ih h.2]
    rfl

/-- The split of a concatenation: the complete lines of `a` are final,
and `a`'s trailing piece joins the front of `b` — exactly the invariant
behind the `buffer` of `sendMessageStream`. -/
theorem splitNl_append (a : List Char) :
    ∀ b, splitNl (a ++ b) =
      (splitNl a).dropLast ++ splitNl ((splitNl a).getLastD [] ++ b) := by
  induction a with
  | nil => intro b; simp [splitNl]
  | cons c cs ih =>
    intro b
    by_cases hc : c = '\n'
    · rw [List.cons_append, splitNl, if_pos hc, ih b, splitNl, if_pos hc,
        List.getLastD_cons]
      rcases hs : splitNl cs with _ | ⟨p, ps⟩
      · exact absurd hs (splitNl_ne_nil cs)
      · rw [List.dropLast_cons₂, List.cons_append]
    · rw [List.cons_append, splitNl, if_neg hc, ih b, splitNl, if_neg hc]
      rcases hs : splitNl cs with _ | ⟨p, ps⟩
      · exact absurd hs (splitNl_ne_nil cs)
      · cases ps with
        | nil =>
          simp only [consHead, List.dropLast_single, List.getLastD_cons, List.getLastD_nil,
            List.nil_append, List.cons_append]
          rw [splitNl, if_neg hc]
          rfl
        | cons q qs =>
          simp only [consHead, List.getLastD_cons, List.dropLast_cons₂, List.cons_append]

/-- One settlement of `reader.read()` inside the stream loop of
`sendMessageStream`: a chunk of bytes, the `done` signal, a rejection
with `AbortError` (the returned `AbortController` fired), or a rejection
with any other error. -/
inductive ReadStep where
  | chunk (bytes : List Char)
  | done
  | aborted
  | failed (message : String)

/-- The stream loop of `sendMessageStream` (`api.js`): each chunk is
appended to the buffer, the buffer is split on newlines, the incomplete
trailing line is kept (`buffer = lines.pop() || ''`), and each complete
line is handed to the per-line handler `f` (the `data: `-prefix check,
`JSON.parse`, and callback dispatch — a function of the whole line),
which may invoke one callback.  `done` ends the loop; a rejection ends
the promise chain, reaching the `.catch` which invokes
`onError('stream_error', message)` unless the error is an `AbortError`.
`decoder.decode(value, {stream: true})` makes the decoded text of the
chunks concatenation-faithful, so chunks are modelled as text. -/
def runStream (f : List Char → Option Callback) (buffer : List Char) : List ReadStep → List Callback
  | [] => []
  | ReadStep.chunk c :: rest =>
    (splitNl (buffer ++ c)).dropLast.filterMap f
      ++ runStream f ((splitNl (buffer ++ c)).getLastD []) rest
  | ReadStep.done :: _ => []
  | ReadStep.aborted :: _ => []
  | ReadStep.failed m :: _ => [Callback.onError "stream_error" m]

theorem runStream_chunks (f : List Char → Option Callback) :
    ∀ (chunks : List (List Char)) (buffer : List Char), '\n' ∉ buffer →
      runStream f buffer (chunks.map ReadStep.chunk) =
        (splitNl (buffer ++ chunks.flatten)).dropLast.filterMap f := by
  intro chunks
  induction chunks with
  | nil =>
    intro buffer hb
    rw [List.map_nil, runStream, List.flatten_nil, List.append_nil, splitNl_no_nl buffer hb]
    rfl
  | cons c rest ih =>
    intro buffer hb
    rw [List.map_cons, runStream, ih _ (nl_not_mem_splitNl_getLastD (buffer ++ c)),
      List.flatten_cons, ← List.append_assoc, splitNl_append (buffer ++ c) rest.flatten,
      List.dropLast_append_of_ne_nil _ (splitNl_ne_nil _), List.filterMap_append]

/-- Claim C9: SSE parsing in `sendMessageStream` is invariant under
re-chunking — for every per-line handler and every partition of the
stream text into reader chunks, the sequence of callback invocations
equals the one obtained from the whole text as a single chunk, because
an incomplete trailing line waits in the buffer for its newline. -/
theorem claim_C9_rechunking_invariant (f : List Char → Option Callback)
    (chunks : List (List Char)) :
    runStream f [] (chunks.map ReadStep.chunk) =
      runStream f [] [ReadStep.chunk chunks.flatten] := by
  have h1 := runStream_chunks f chunks [] (by simp)
  have h2 := runStream_chunks f [chunks.flatten] [] (by simp)
  rw [List.map_cons, List.map_nil] at h2
  rw [h1, h2, List.flatten_cons, List.flatten_nil, List.append_nil]

/-- Claim C5: aborting via the returned `AbortController` makes the next
`reader.read()` reject with `AbortError`; from that point the run
delivers exactly the callbacks of the chunks already processed — the
same as if the stream had ended — and the abort is never surfaced
through `onError`, while any non-abort failure is surfaced exactly once
as `onError('stream_error', message)`. -/
theorem claim_C5_abort_stops_delivery (f : List Char → Option Callback)
    (buffer : List Char) (pre : List (List Char)) (rest rest2 : List ReadStep) (m : String) :
    runStream f buffer (pre.map ReadStep.chunk ++ ReadStep.aborted :: rest) =
      runStream f buffer (pre.map ReadStep.chunk ++ [ReadStep.done]) ∧
    runStream f buffer (pre.map ReadStep.chunk ++ ReadStep.failed m :: rest2) =
      runStream f buffer (pre.map ReadStep.chunk ++ [ReadStep.done])
        ++ [Callback.onError "stream_error" m] := by
  induction pre generalizing buffer with
  | nil => exact ⟨rfl, rfl⟩
  | cons c cs ih =>
    simp only [List.map_cons, List.cons_append, runStream, List.append_eq]
    refine ⟨?_, ?_⟩
    · rw [(ih _).1]
    · rw [(ih _).2, List.append_assoc]

/-- A parsed SSE event (`eventData` after `JSON.parse` in
`sendMessageStream`): its `event` discriminator and the `data` payload;
`other` covers any unrecognized discriminator, which the dispatch chain
ignores. -/
inductive SseEvent where
  | status (step message agent : String)
  | complete (response : String) (sources : List Source) (conversation_id : Option String)
  | error (error message : String)
  | other (tag : String)
deriving DecidableEq

/-- The `if/else` dispatch chain of `sendMessageStream`: a `status`
event invokes `onStatus(step, message, agent)`, `complete` invokes
`onComplete(data)`, `error` invokes `onError(data)`, and anything else
invokes nothing. -/
def dispatchEvent : SseEvent → Option Callback
  | .status st m a => some (.onStatus st m a)
  | .complete r srcs conv => some (.onComplete r srcs conv)
  | .error e m => some (.onError e m)
  | .other _ => none

/-- The callback invocations produced by dispatching a parsed event
sequence in order. -/
def streamCallbacks (evs : List SseEvent) : List Callback :=
  evs.filterMap dispatchEvent

/-- Whether an event is terminal (`complete` or `error`). -/
def isTerminalEvent : SseEvent → Bool
  | .complete _ _ _ => true
  | .error _ _ => true
  | _ => false

/-- Whether an event is a `status` event. -/
def isStatusEvent : SseEvent → Bool
  | .status _ _ _ => true
  | _ => false

/-- Whether a callback invocation is terminal (`onComplete` or
`onError`). -/
def isTerminalCallback : Callback → Bool
  | .onComplete _ _ _ => true
  | .onError _ _ => true
  | .onStatus _ _ _ => false

/-- Whether a callback invocation is `onStatus`. -/
def isStatusCallback : Callback → Bool
  | .onStatus _ _ _ => true
  | _ => false

/-- Modelled from the spec: the Orchestrator (backend code outside the
frontend sources) guarantees that each execution's event stream is one
or more `status` events followed by exactly one terminal event
(`complete` xor `error`), which is last. -/
def WellFormedExecution (evs : List SseEvent) : Prop :=
  evs ≠ [] ∧ evs.dropLast.all isStatusEvent = true ∧
    isTerminalEvent (evs.getLastD (.other "")) = true

theorem streamCallbacks_statuses (pre : List SseEvent) (h : pre.all isStatusEvent = true) :
    (streamCallbacks pre).all isStatusCallback = true ∧
    (streamCallbacks pre).countP isTerminalCallback = 0 := by
  induction pre with
  | nil => exact ⟨rfl, rfl⟩
  | cons e rest ih =>
    rw [List.all_cons, Bool.and_eq_true] at h
    obtain ⟨he, hrest⟩ := h
    obtain ⟨ih1, ih2⟩ := ih hrest
    cases e with
    | status st m a =>
      constructor
      · simpa [streamCallbacks, dispatchEvent, isStatusCallback] using ih1
      · simpa [streamCallbacks, dispatchEvent, List.countP_cons, isTerminalCallback] using ih2
    | complete r srcs conv => simp [isStatusEvent] at he
    | error e m => simp [isStatusEvent] at he
    | other t => simp [isStatusEvent] at he

theorem terminal_dispatch (t : SseEvent) (ht : isTerminalEvent t = true) :
    ∃ c, dispatchEvent t = some c ∧ isTerminalCallback c = true := by
  cases t with
  | status st m a => simp [isTerminalEvent] at ht
  | complete r srcs conv => exact ⟨_, rfl, rfl⟩
  | error e m => exact ⟨_, rfl, rfl⟩
  | other tag => simp [isTerminalEvent] at ht

/-- Claim C1: for every execution stream satisfying the Orchestrator's
guarantee (statuses, then exactly one terminal event, last), the
callbacks `sendMessageStream` invokes contain exactly one terminal
invocation (`onComplete` xor `onError`), it comes last, every preceding
invocation is an `onStatus`, and nothing is invoked after it. -/
theorem claim_C1_one_terminal_callback_last (evs : List SseEvent)
    (h : WellFormedExecution evs) :
    (streamCallbacks evs).countP isTerminalCallback = 1 ∧
    ∃ pre t, streamCallbacks evs = pre ++ [t] ∧ isTerminalCallback t = true ∧
      pre.all isStatusCallback = true := by
  obtain ⟨hne, hstat, hterm⟩ := h
  have hdecomp := List.dropLast_append_getLast hne
  rw [List.getLastD_eq_getLast?, List.getLast?_eq_getLast evs hne, Option.getD_some] at hterm
  obtain ⟨c, hc, hct⟩ := terminal_dispatch _ hterm
  obtain ⟨hall, hcount⟩ := streamCallbacks_statuses evs.dropLast hstat
  have hsplit : streamCallbacks evs = streamCallbacks evs.dropLast ++ [c] := by
    rw [← hdecomp, streamCallbacks, List.filterMap_append]
    simp [streamCallbacks, List.filterMap, hc]
  constructor
  · rw [hsplit, List.countP_append, hcount, List.countP_cons, hct]
    rfl
  · exact ⟨streamCallbacks evs.dropLast, c, hsplit, hct, hall⟩

/-- The concrete event stream used to witness claim C1: one status
event then one completion. -/
def evsC1 : List SseEvent :=
  [ SseEvent.status "retrieval" "Buscando documentos" "retrieval_agent",
    SseEvent.complete "Resposta final" [] (some "conv-1") ]

/-- Claim C1, witness: the concrete status-then-complete stream yields
exactly one terminal callback, last, with only `onStatus` before it. -/
theorem claim_C1_witness :
    (streamCallbacks evsC1).countP isTerminalCallback = 1 ∧
    ∃ pre t, streamCallbacks evsC1 = pre ++ [t] ∧ isTerminalCallback t = true ∧
      pre.all isStatusCallback = true :=
  claim_C1_one_terminal_callback_last evsC1 ⟨List.cons_ne_nil _ _, rfl, rfl⟩

/-- The slice of `AppState` (`app.js`) that `sendMessage` reads and
writes: the chat input's value, the selected client/contract/
conversation ids, the `isSending` flag and the message list. -/
structure AppStateM where
  chatInput : String
  selectedClient : Option String
  selectedContract : Option String
  selectedConversation : Option String
  isSending : Bool
  currentMessages : List Msg

/-- `sendMessage` (`app.js`): trims the input; if the trimmed text is
empty, no client is selected, or a send is in flight, it returns
without any effect.  Otherwise it sets `isSending`, clears the input,
appends the user message, and dispatches one streaming chat request
(`API.Chat.sendMessageStream` with the selected contract/conversation
and `includeSources: true`). -/
def sendMessage (st : AppStateM) : AppStateM × Option ChatRequestBody :=
  if st.chatInput.trim = "" ∨ st.selectedClient = none ∨ st.isSending = true then (st, none)
  else
    ({ st with
        isSending := true,
        chatInput := "",
        currentMessages := st.currentMessages ++
          [{ id := none, role := "user", content := st.chatInput.trim,
             metadata_sources := [] }] },
      some (sendMessageStreamBody (st.chatInput.trim) (st.selectedClient.getD "")
        { contractId := st.selectedContract, conversationId := st.selectedConversation,
          includeSources := some true, includeDebug := none }))

/-- The `onComplete` callback of `sendMessage` (`app.js`): append the
assistant message with its sources, adopt the returned conversation id
when none was selected, and clear `isSending`. -/
def onCompleteStep (st : AppStateM) (response : String) (sources : List Source)
    (conversation_id : Option String) : AppStateM :=
  { st with
    currentMessages := st.currentMessages ++
      [{ id := none, role := "assistant", content := response,
         metadata_sources := sources }],
    selectedConversation := match st.selectedConversation, conversation_id with
      | none, some cid => some cid
      | sel, _ => sel,
    isSending := false }

/-- The `onError` callback of `sendMessage` (`app.js`): clear
`isSending` (a toast is shown, no state beyond that changes). -/
def onErrorStep (st : AppStateM) : AppStateM :=
  { st with isSending := false }

/-- A user-interface event relevant to the sending lifecycle: the user
submits the chat form, or the in-flight stream delivers its terminal
callback. -/
inductive UiEvent where
  | userSend
  | streamComplete (response : String) (sources : List Source) (conversation_id : Option String)
  | streamError (message : String)

/-- The application state together with the number of outstanding chat
requests (a terminal stream callback can only be delivered by an
outstanding request, so it is a no-op when none is outstanding). -/
structure SysState where
  app : AppStateM
  inFlight : Nat

/-- One step of the sending lifecycle. -/
def sysStep (s : SysState) : UiEvent → SysState
  | .userSend =>
    { app := (sendMessage s.app).1,
      inFlight := s.inFlight + (match (sendMessage s.app).2 with | some _ => 1 | none => 0) }
  | .streamComplete resp srcs conv =>
    if s.inFlight = 0 then s
    else { app := onCompleteStep s.app resp srcs conv, inFlight := s.inFlight - 1 }
  | .streamError _ =>
    if s.inFlight = 0 then s
    else { app := onErrorStep s.app, inFlight := s.inFlight - 1 }

/-- The page-load state: no client selected, empty input, nothing in
flight. -/
def initState : SysState :=
  { app := { chatInput := "", selectedClient := none, selectedContract := none,
             selectedConversation := none, isSending := false, currentMessages := [] },
    inFlight := 0 }

/-- Run the sending lifecycle from page load. -/
def sysRun (es : List UiEvent) : SysState :=
  es.foldl sysStep initState

/-- The single-flight invariant: at most one chat request is
outstanding, and exactly one is outstanding precisely while `isSending`
is set. -/
def SendInvariant (s : SysState) : Prop :=
  s.inFlight ≤ 1 ∧ (s.app.isSending = true ↔ s.inFlight = 1)

theorem sysStep_invariant (s : SysState) (h : SendInvariant s) (e : UiEvent) :
    SendInvariant (sysStep s e) := by
  obtain ⟨hle, hiff⟩ := h
  cases e with
  | userSend =>
    by_cases hg : s.app.chatInput.trim = "" ∨ s.app.selectedClient = none ∨
        s.app.isSending = true
    · rw [sysStep, sendMessage, if_pos hg]
      simp only [SendInvariant]
      exact ⟨by omega, by simpa using hiff⟩
    · have hns : ¬s.app.isSending = true := fun hs => hg (Or.inr (Or.inr hs))
      have hz : s.inFlight = 0 := by
        by_contra hnz
        exact hns (hiff.mpr (by omega))
      rw [sysStep, sendMessage, if_neg hg]
      simp only [SendInvariant]
      exact ⟨by omega, by simp [hz]⟩
  | streamComplete resp srcs conv =>
    rw [sysStep]
    by_cases hz : s.inFlight = 0
    · rw [if_pos hz]; exact ⟨hle, hiff⟩
    · rw [if_neg hz]
      simp only [SendInvariant]
      refine ⟨by omega, ?_⟩
      simp only [onCompleteStep]
      constructor
      · intro hfalse; simp at hfalse
      · intro h1; omega
  | streamError m =>
    rw [sysStep]
    by_cases hz : s.inFlight = 0
    · rw [if_pos hz]; exact ⟨hle, hiff⟩
    · rw [if_neg hz]
      simp only [SendInvariant]
      refine ⟨by omega, ?_⟩
      simp only [onErrorStep]
      constructor
      · intro hfalse; simp at hfalse
      · intro h1; omega

theorem foldl_sysStep_invariant (es : List UiEvent) :
    ∀ s : SysState, SendInvariant s → SendInvariant (es.foldl sysStep s) := by
  induction es with
  | nil => intro s hs; exact hs
  | cons e rest ih => intro s hs; exact ih _ (sysStep_invariant s hs e)

theorem sysRun_invariant (es : List UiEvent) : SendInvariant (sysRun es) :=
  foldl_sysStep_invariant es initState ⟨by decide, by simp [initState]⟩

/-- Claim C10: `sendMessage` is a no-op whenever its guard fails (empty
trimmed input, no selected client, or a send already in flight): the
state is unchanged and no request is issued.  Consequently, from page
load, at most one chat request initiated by `sendMessage` is ever in
flight, and one is in flight exactly while `isSending` is set. -/
theorem claim_C10_guard_noop_single_flight :
    (∀ st : AppStateM,
      st.chatInput.trim = "" ∨ st.selectedClient = none ∨ st.isSending = true →
        sendMessage st = (st, none)) ∧
    (∀ es : List UiEvent, (sysRun es).inFlight ≤ 1 ∧
      ((sysRun es).app.isSending = true ↔ (sysRun es).inFlight = 1)) := by
  constructor
  · intro st h
    rw [sendMessage, if_pos h]
  · intro es
    exact sysRun_invariant es

/-- A state with a send already in flight, used to witness claim C10. -/
def stC10 : AppStateM :=
  { chatInput := "Qual o valor da coparticipacao?", selectedClient := some "c1",
    selectedContract := none, selectedConversation := none,
    isSending := true, currentMessages := [] }

/-- Claim C10, witness: with `isSending` set, `sendMessage` leaves the
state untouched and issues no request. -/
theorem claim_C10_witness : sendMessage stC10 = (stC10, none) :=
  claim_C10_guard_noop_single_flight.1 stC10 (Or.inr (Or.inr rfl))

/-- Modelled from the spec: the four specialized agents (§2).  The
Intent Router and Orchestrator are backend components not present in
the frontend sources. -/
inductive AgentName where
  | retrieval
  | contractInterpretation
  | costAnalysis
  | recommendation
deriving DecidableEq

/-- Modelled from the spec: the fixed set of routing intents (§4.1). -/
inductive RoutingIntent where
  | contractOnly
  | costOnly
  | crossCutting
  | ambiguous
deriving DecidableEq

/-- Modelled from the spec: the fixed catalogue of routing patterns
(§4.1), an Execution Plan as ordered stages of concurrently-run
agents. -/
def planFor : RoutingIntent → List (List AgentName)
  | .contractOnly => [[.retrieval], [.contractInterpretation]]
  | .costOnly => [[.costAnalysis]]
  | .crossCutting => [[.retrieval, .costAnalysis], [.contractInterpretation], [.recommendation]]
  | .ambiguous => [[.retrieval], [.contractInterpretation]]

/-- Modelled from the spec: classification of a question from its
signals (contract-question, cost-question, cross-cutting), with the
tie-break rule that the cross-cutting superset plan wins (§4.1). -/
def classifyIntent (contractQ costQ crossQ : Bool) : RoutingIntent :=
  if crossQ then .crossCutting
  else if costQ then .costOnly
  else if contractQ then .contractOnly
  else .ambiguous

/-- Modelled from the spec: the Intent Router — when the classification
service is reachable it returns the catalogued plan for the classified
intent; a classification failure falls back deterministically to the
ambiguous plan rather than failing the request (§4.1). -/
def intentRouter (contractQ costQ crossQ : Bool) (classifierReachable : Bool) :
    List (List AgentName) :=
  if classifierReachable then planFor (classifyIntent contractQ costQ crossQ)
  else planFor .ambiguous

/-- Claim C7: routing is deterministic and idempotent — equal question
signals and classifier outcome always yield the same Execution Plan —
classification failure falls back to the ambiguous plan
([Retrieval] then [Contract-Interpretation]) instead of failing, and
every plan the router returns satisfies the plan invariant that no
agent appears in two stages. -/
theorem claim_C7_routing_deterministic_fallback :
    (∀ a b c r a' b' c' r' : Bool, a = a' → b = b' → c = c' → r = r' →
      intentRouter a b c r = intentRouter a' b' c' r') ∧
    (∀ a b c : Bool, intentRouter a b c false = planFor RoutingIntent.ambiguous) ∧
    planFor RoutingIntent.ambiguous =
      [[AgentName.retrieval], [AgentName.contractInterpretation]] ∧
    (∀ a b c r : Bool, (intentRouter a b c r).flatten.Nodup) := by
  refine ⟨?_, ?_, rfl, ?_⟩
  · intro a b c r a' b' c' r' h1 h2 h3 h4
    subst h1; subst h2; subst h3; subst h4
    rfl
  · intro a b c
    rfl
  · decide

/-- Claim C7, witness: two identical invocations on a concrete
cross-cutting question agree, and a concrete classification failure
yields the ambiguous plan. -/
theorem claim_C7_witness :
    intentRouter true true true true = intentRouter true true true true ∧
    intentRouter true true true false = planFor RoutingIntent.ambiguous :=
  ⟨claim_C7_routing_deterministic_fallback.1 true true true true true true true true
      rfl rfl rfl rfl,
   claim_C7_routing_deterministic_fallback.2.1 true true true⟩

end HealthCost
